import Mathlib

/-!
Verification of the saved-search filter engine and notification-scheduling
policy of the housing-trends repository.

The definitions below are a shallow embedding of the TypeScript sources:

* `NotificationsService` (`sendMarketUpdate`, `processScheduledNotifications`,
  `processNotificationsByFrequency`, `getLastNotificationThreshold`,
  `getNotification`, `markAsRead`, `deleteNotification`) — notification
  scheduling, delivery hand-off and per-user notification CRUD.
* `HousingService` (`getHousingData`, `calculateTrendSummary`) together with
  `GetHousingDataDto` — the filter engine.

Timestamps are modelled as integers (milliseconds since the epoch, the unit of
`Date.getTime()`); monetary amounts as integers; the effectful Prisma store as
explicit lists threaded through the functions; a thrown exception as the
`Except.error` branch carrying the database state at the moment the exception
escapes.  Prisma's `findMany` with an `orderBy` clause is modelled as a stable
sort of the stored list (ties keep store order), followed by `skip`/`take`.
JavaScript truthiness tests on optional numeric query fields (`if (x || y)`)
are modelled explicitly: a numeric field is truthy exactly when it is present
and nonzero.
-/

namespace HousingTrends

/-! ## Notification scheduling (NotificationsService) -/

inductive NotificationFrequency where
  | DAILY
  | WEEKLY
  | MONTHLY
deriving DecidableEq, Repr

structure SavedSearch where
  id : Nat
  userId : Nat
  emailNotifications : Bool
  notificationFrequency : NotificationFrequency
  lastNotifiedAt : Option Int
deriving DecidableEq, Repr

/-- `getLastNotificationThreshold`, taken relative to the current time `now`
(ms): `now - 24h` for DAILY, `now - 7d` for WEEKLY, `now - 30d` for MONTHLY. -/
def getLastNotificationThreshold (now : Int) : NotificationFrequency → Int
  | .DAILY => now - 24 * 60 * 60 * 1000
  | .WEEKLY => now - 7 * 24 * 60 * 60 * 1000
  | .MONTHLY => now - 30 * 24 * 60 * 60 * 1000

/-- The `where` clause of `processNotificationsByFrequency`:
`emailNotifications && notificationFrequency = f && (lastNotifiedAt == null ||
lastNotifiedAt < getLastNotificationThreshold(f))`. -/
def dueForFrequency (now : Int) (f : NotificationFrequency) (s : SavedSearch) : Bool :=
  s.emailNotifications && (s.notificationFrequency == f) &&
    (match s.lastNotifiedAt with
     | none => true
     | some t => decide (t < getLastNotificationThreshold now f))

/-- The cadence windows named by the specification: 24 hours for daily, 7 days
for weekly, 30 days for monthly (in milliseconds). -/
def cadenceWindow : NotificationFrequency → Int
  | .DAILY => 24 * 60 * 60 * 1000
  | .WEEKLY => 7 * 24 * 60 * 60 * 1000
  | .MONTHLY => 30 * 24 * 60 * 60 * 1000

theorem threshold_eq_window (now : Int) (f : NotificationFrequency) :
    getLastNotificationThreshold now f = now - cadenceWindow f := by
  cases f <;> rfl

/-- C1 counterexample: an enabled weekly SavedSearch whose `lastNotifiedAt`
lies exactly 7 days (one full cadence window) before `now` satisfies
`now - lastFiredAt >= cadenceWindow(weekly)`, yet the scheduler's due query
does not select it, because the code compares with a strict `<` against the
threshold.  (`now` is 6048000000 ms; `lastNotifiedAt` is 6048000000 -
604800000.) -/
theorem dueBoundary_cex :
    (6048000000 : Int) - (6048000000 - 7 * 24 * 60 * 60 * 1000) ≥ cadenceWindow .WEEKLY ∧
    dueForFrequency 6048000000 .WEEKLY
      ⟨1, 1, true, .WEEKLY, some (6048000000 - 7 * 24 * 60 * 60 * 1000)⟩ = false := by
  constructor
  · decide
  · decide

theorem dueForFrequency_eq (now : Int) (f : NotificationFrequency) (s : SavedSearch) :
    dueForFrequency now f s = true ↔
      s.emailNotifications = true ∧ s.notificationFrequency = f ∧
        (s.lastNotifiedAt = none ∨
          ∃ t, s.lastNotifiedAt = some t ∧ now - t > cadenceWindow f) := by
  unfold dueForFrequency
  cases hlast : s.lastNotifiedAt with
  | none =>
    simp [hlast]
  | some t =>
    rw [threshold_eq_window]
    simp [hlast]
    constructor
    · rintro ⟨⟨h1, h2⟩, h3⟩
      exact ⟨h1, h2, by omega⟩
    · rintro ⟨h1, h2, h3⟩
      exact ⟨⟨h1, h2⟩, by omega⟩

/-- C1 (amended): the due query selects a SavedSearch exactly when it has
email notifications enabled, its frequency matches, and `lastFiredAt` is null
or `now - lastFiredAt` is STRICTLY greater than the cadence window (24h daily,
7d weekly, 30d monthly).  In particular a weekly search last fired exactly 7
days ago is not due; one fired more than 7 days ago is due. -/
theorem dueForFrequency_iff (now : Int) (f : NotificationFrequency) (s : SavedSearch) :
    dueForFrequency now f s = true ↔
      s.emailNotifications = true ∧ s.notificationFrequency = f ∧
        (s.lastNotifiedAt = none ∨
          ∃ t, s.lastNotifiedAt = some t ∧ now - t > cadenceWindow f) :=
  dueForFrequency_eq now f s

/-! ## Delivery hand-off and the batch tick

`sendMarketUpdate(userId, savedSearchId)` looks the SavedSearch up, creates a
notification record (`createNotification`), hands it to the delivery queue
(`queueNotification` — `notificationQueue.add`), and only then advances
`lastNotifiedAt`.  The store is modelled as `NotifDb`; `notifications` and
`queued` record, by savedSearchId, which notification records were created and
which were handed to the queue.  A failing queue hand-off is a thrown
exception: the `Except.error` branch carries the database state at the point
the exception escaped (the notification record already exists, `lastNotifiedAt`
is untouched). -/

structure NotifDb where
  searches : List SavedSearch
  notifications : List Nat
  queued : List Nat
deriving DecidableEq, Repr

/-- The `savedSearch.update` setting `lastNotifiedAt = new Date()`. -/
def markNotified (now : Int) (sid : Nat) (l : List SavedSearch) : List SavedSearch :=
  l.map fun s => if s.id = sid then { s with lastNotifiedAt := some now } else s

/-- `sendMarketUpdate`, with the queue hand-off outcome made explicit
(`ok = false` means `notificationQueue.add` throws). -/
def sendMarketUpdate (ok : Bool) (now : Int) (sid : Nat) (db : NotifDb) :
    Except NotifDb NotifDb :=
  match db.searches.find? (fun s => s.id == sid) with
  | none => .ok db
  | some _ =>
    let db1 : NotifDb := { db with notifications := db.notifications ++ [sid] }
    if ok then
      let db2 : NotifDb := { db1 with queued := db1.queued ++ [sid] }
      .ok { db2 with searches := markNotified now sid db2.searches }
    else
      .error db1

/-- The database state after a call, whether it returned or threw. -/
def dbAfter : Except NotifDb NotifDb → NotifDb
  | .ok d => d
  | .error d => d

/-- The `for (const savedSearch of savedSearches) await sendMarketUpdate(...)`
loop of `processNotificationsByFrequency`: there is no try/catch, so an
exception propagates and aborts the remainder of the loop.  `fails sid = true`
means the queue hand-off for search `sid` throws. -/
def processLoop (fails : Nat → Bool) (now : Int) (db : NotifDb) :
    List SavedSearch → Except NotifDb NotifDb
  | [] => .ok db
  | s :: rest =>
    match sendMarketUpdate (!fails s.id) now s.id db with
    | .ok db1 => processLoop fails now db1 rest
    | .error db1 => .error db1

/-- `processNotificationsByFrequency`: query the due set once, then loop. -/
def processNotificationsByFrequency (fails : Nat → Bool) (now : Int)
    (f : NotificationFrequency) (db : NotifDb) : Except NotifDb NotifDb :=
  processLoop fails now db (db.searches.filter (dueForFrequency now f))

/-- `processScheduledNotifications`: DAILY on every invocation, WEEKLY only
when the day of week is 1 (Monday), MONTHLY only when the day of month is 1. -/
def processScheduledNotifications (fails : Nat → Bool) (dow dom : Nat) (now : Int)
    (db : NotifDb) : Except NotifDb NotifDb :=
  match processNotificationsByFrequency fails now .DAILY db with
  | .error d => .error d
  | .ok d1 =>
    match (if dow = 1 then processNotificationsByFrequency fails now .WEEKLY d1
           else .ok d1) with
    | .error d => .error d
    | .ok d2 =>
      if dom = 1 then processNotificationsByFrequency fails now .MONTHLY d2
      else .ok d2

theorem dueForFrequency_mono {now now' : Int} {f : NotificationFrequency}
    {s : SavedSearch} (h : dueForFrequency now f s = true) (hle : now ≤ now') :
    dueForFrequency now' f s = true := by
  rw [dueForFrequency_eq] at h ⊢
  obtain ⟨h1, h2, h3⟩ := h
  refine ⟨h1, h2, ?_⟩
  rcases h3 with h3 | ⟨t, ht, hgt⟩
  · exact Or.inl h3
  · exact Or.inr ⟨t, ht, by omega⟩

/-- C2: at-least-once delivery.  For a due SavedSearch, if the queue hand-off
fails (`ok = false`), the saved-search store is left unchanged — in particular
`lastNotifiedAt` is not advanced — and the search is again in the due set of
any later tick; conversely, any call that changed the saved-search store had a
successful hand-off. -/
theorem sendMarketUpdate_atLeastOnce (db : NotifDb) (s : SavedSearch)
    (f : NotificationFrequency) (now now' : Int)
    (hmem : s ∈ db.searches) (hdue : dueForFrequency now f s = true)
    (hle : now ≤ now') :
    ((dbAfter (sendMarketUpdate false now s.id db)).searches = db.searches ∧
      s ∈ (dbAfter (sendMarketUpdate false now s.id db)).searches.filter
        (dueForFrequency now' f)) ∧
    (∀ ok : Bool, ∀ db1 : NotifDb, sendMarketUpdate ok now s.id db = .ok db1 →
      db1.searches ≠ db.searches → ok = true) := by
  have hdue' : dueForFrequency now' f s = true := dueForFrequency_mono hdue hle
  have hfind : (db.searches.find? (fun x => x.id == s.id)).isSome := by
    rw [List.find?_isSome]
    exact ⟨s, hmem, by simp⟩
  constructor
  · obtain ⟨x, hx⟩ := Option.isSome_iff_exists.mp hfind
    constructor
    · simp [sendMarketUpdate, hx, dbAfter]
    · simp [sendMarketUpdate, hx, dbAfter, List.mem_filter]
      exact ⟨hmem, hdue'⟩
  · intro ok db1 hok hne
    cases ok with
    | true => rfl
    | false =>
      exfalso
      obtain ⟨x, hx⟩ := Option.isSome_iff_exists.mp hfind
      simp [sendMarketUpdate, hx] at hok

/-- Witness for C2 at a concrete due weekly search and failing hand-off. -/
theorem sendMarketUpdate_atLeastOnce_witness :
    ((dbAfter (sendMarketUpdate false 6048000000 3
        ⟨[⟨3, 9, true, .WEEKLY, some 1000⟩], [], []⟩)).searches =
      [⟨3, 9, true, .WEEKLY, some 1000⟩] ∧
      (⟨3, 9, true, .WEEKLY, some 1000⟩ : SavedSearch) ∈
        (dbAfter (sendMarketUpdate false 6048000000 3
          ⟨[⟨3, 9, true, .WEEKLY, some 1000⟩], [], []⟩)).searches.filter
          (dueForFrequency 6148000000 .WEEKLY)) ∧
    (∀ ok : Bool, ∀ db1 : NotifDb,
      sendMarketUpdate ok 6048000000 3
        ⟨[⟨3, 9, true, .WEEKLY, some 1000⟩], [], []⟩ = .ok db1 →
      db1.searches ≠ [⟨3, 9, true, .WEEKLY, some 1000⟩] → ok = true) :=
  sendMarketUpdate_atLeastOnce ⟨[⟨3, 9, true, .WEEKLY, some 1000⟩], [], []⟩
    ⟨3, 9, true, .WEEKLY, some 1000⟩ .WEEKLY 6048000000 6148000000
    (by simp) (by decide) (by decide)

/-- C3 counterexample: a tick with two due daily searches in which processing
the first one throws.  The exception propagates out of the loop (`.error`),
the second search — although due — is not processed: the saved-search list is
unchanged, only the first search's notification record was created, and
nothing was queued for search 2. -/
theorem failureIsolation_cex :
    dueForFrequency 0 .DAILY ⟨2, 2, true, .DAILY, none⟩ = true ∧
    processNotificationsByFrequency (fun n => n == 1) 0 .DAILY
      ⟨[⟨1, 1, true, .DAILY, none⟩, ⟨2, 2, true, .DAILY, none⟩], [], []⟩ =
      .error ⟨[⟨1, 1, true, .DAILY, none⟩, ⟨2, 2, true, .DAILY, none⟩], [1], []⟩ := by
  constructor
  · decide
  · rfl

/-- C3 (amended): the per-search loop has no try/catch, so a failure while
processing the first due SavedSearch of a tick propagates as an error and
aborts the batch: the tick ends with `.error` and no SavedSearch — neither the
failing one nor any of the remaining due ones — has its `lastFiredAt`
advanced (the saved-search store is unchanged, so they all remain due for the
next tick). -/
theorem processByFrequency_failure_aborts (fails : Nat → Bool) (now : Int)
    (f : NotificationFrequency) (db : NotifDb) (s : SavedSearch)
    (rest : List SavedSearch)
    (hdue : db.searches.filter (dueForFrequency now f) = s :: rest)
    (hfail : fails s.id = true) :
    ∃ db1, processNotificationsByFrequency fails now f db = .error db1 ∧
      db1.searches = db.searches := by
  have hmem : s ∈ db.searches := by
    have hs : s ∈ db.searches.filter (dueForFrequency now f) := by
      rw [hdue]
      exact List.mem_cons_self s rest
    exact List.mem_of_mem_filter hs
  have hfind : (db.searches.find? (fun x => x.id == s.id)).isSome := by
    rw [List.find?_isSome]
    exact ⟨s, hmem, by simp⟩
  obtain ⟨x, hx⟩ := Option.isSome_iff_exists.mp hfind
  refine ⟨⟨db.searches, db.notifications ++ [s.id], db.queued⟩, ?_, rfl⟩
  unfold processNotificationsByFrequency
  rw [hdue]
  unfold processLoop
  simp [sendMarketUpdate, hfail, hx]

/-- Witness for the amended C3 at a concrete two-search tick. -/
theorem processByFrequency_failure_aborts_witness :
    ∃ db1, processNotificationsByFrequency (fun n => n == 1) 0 .DAILY
      ⟨[⟨1, 1, true, .DAILY, none⟩, ⟨2, 2, true, .DAILY, none⟩], [], []⟩ =
        .error db1 ∧
      db1.searches = [⟨1, 1, true, .DAILY, none⟩, ⟨2, 2, true, .DAILY, none⟩] :=
  processByFrequency_failure_aborts (fun n => n == 1) 0 .DAILY
    ⟨[⟨1, 1, true, .DAILY, none⟩, ⟨2, 2, true, .DAILY, none⟩], [], []⟩
    ⟨1, 1, true, .DAILY, none⟩ [⟨2, 2, true, .DAILY, none⟩] (by decide) (by decide)

/-! ## Per-user notification reads and mutations (information hiding) -/

structure NotificationRecord where
  id : Nat
  userId : Nat
  read : Bool
  readAt : Option Int
deriving DecidableEq, Repr

inductive ApiError where
  | notFound (msg : String)
deriving DecidableEq, Repr

/-- `getNotification(id, userId)`: `findFirst({ where: { id, userId } })`,
throwing `NotFoundException("Notification not found")` when nothing matches. -/
def getNotification (store : List NotificationRecord) (nid uid : Nat) :
    Except ApiError NotificationRecord :=
  match store.find? (fun n => n.id == nid && n.userId == uid) with
  | some n => .ok n
  | none => .error (.notFound "Notification not found")

/-- `markAsRead(id, userId)`: ownership check via `getNotification`, then
`update({ where: { id }, data: { read: true, readAt: new Date() } })`. -/
def markAsRead (now : Int) (store : List NotificationRecord) (nid uid : Nat) :
    Except ApiError (List NotificationRecord) :=
  match getNotification store nid uid with
  | .error e => .error e
  | .ok _ =>
    .ok (store.map fun n =>
      if n.id = nid then { n with read := true, readAt := some now } else n)

/-- `deleteNotification(id, userId)`: ownership check via `getNotification`,
then `delete({ where: { id } })`. -/
def deleteNotification (store : List NotificationRecord) (nid uid : Nat) :
    Except ApiError (List NotificationRecord) :=
  match getNotification store nid uid with
  | .error e => .error e
  | .ok _ => .ok (store.filter fun n => decide (n.id ≠ nid))

/-- C8: ownership information hiding.  Take any store `s1` in which the id
`nid` is never owned by caller `uid` (it may well exist, owned by someone
else) and any store `s2` in which `nid` does not exist at all: reading,
marking read and deleting produce literally the same
`NotFound "Notification not found"` outcome in both stores, and no error
other than that one `NotFound` can ever be produced by these operations. -/
theorem ownership_information_hiding (s1 s2 : List NotificationRecord)
    (nid uid : Nat) (now : Int)
    (h1 : ∀ n ∈ s1, n.id = nid → n.userId ≠ uid)
    (h2 : ∀ n ∈ s2, n.id ≠ nid) :
    getNotification s1 nid uid = .error (.notFound "Notification not found") ∧
    getNotification s1 nid uid = getNotification s2 nid uid ∧
    markAsRead now s1 nid uid = .error (.notFound "Notification not found") ∧
    markAsRead now s1 nid uid = markAsRead now s2 nid uid ∧
    deleteNotification s1 nid uid = .error (.notFound "Notification not found") ∧
    deleteNotification s1 nid uid = deleteNotification s2 nid uid ∧
    (∀ (st : List NotificationRecord) (e : ApiError),
      getNotification st nid uid = .error e →
      e = .notFound "Notification not found") := by
  have hf1 : s1.find? (fun n => n.id == nid && n.userId == uid) = none := by
    rw [List.find?_eq_none]
    intro n hn
    simp only [Bool.and_eq_true, beq_iff_eq, not_and]
    intro hid
    exact h1 n hn hid
  have hf2 : s2.find? (fun n => n.id == nid && n.userId == uid) = none := by
    rw [List.find?_eq_none]
    intro n hn
    simp only [Bool.and_eq_true, beq_iff_eq, not_and]
    intro hid
    exact absurd hid (h2 n hn)
  refine ⟨?_, ?_, ?_, ?_, ?_, ?_, ?_⟩
  · simp [getNotification, hf1]
  · simp [getNotification, hf1, hf2]
  · simp [markAsRead, getNotification, hf1]
  · simp [markAsRead, getNotification, hf1, hf2]
  · simp [deleteNotification, getNotification, hf1]
  · simp [deleteNotification, getNotification, hf1, hf2]
  · intro st e he
    unfold getNotification at he
    cases hfind : st.find? (fun n => n.id == nid && n.userId == uid) with
    | some n => rw [hfind] at he; exact absurd he (by simp)
    | none =>
      rw [hfind] at he
      simpa using he.symm

/-- Witness for C8: id 5 exists but belongs to user 7; caller is user 3;
the empty store lacks id 5 entirely. -/
theorem ownership_information_hiding_witness :
    getNotification [⟨5, 7, false, none⟩] 5 3 =
      .error (.notFound "Notification not found") ∧
    getNotification [⟨5, 7, false, none⟩] 5 3 = getNotification [] 5 3 ∧
    markAsRead 0 [⟨5, 7, false, none⟩] 5 3 =
      .error (.notFound "Notification not found") ∧
    markAsRead 0 [⟨5, 7, false, none⟩] 5 3 = markAsRead 0 [] 5 3 ∧
    deleteNotification [⟨5, 7, false, none⟩] 5 3 =
      .error (.notFound "Notification not found") ∧
    deleteNotification [⟨5, 7, false, none⟩] 5 3 = deleteNotification [] 5 3 ∧
    (∀ (st : List NotificationRecord) (e : ApiError),
      getNotification st 5 3 = .error e →
      e = .notFound "Notification not found") :=
  ownership_information_hiding [⟨5, 7, false, none⟩] [] 5 3 0
    (by decide) (by decide)

/-! ## Calendar gating of the scheduler tick -/

/-- The searches of `db` carrying the id `sid`. -/
def searchesWithId (sid : Nat) (db : NotifDb) : List SavedSearch :=
  db.searches.filter (fun x => x.id == sid)

/-- How many notification records of `db` belong to search `sid`. -/
def notifCount (sid : Nat) (db : NotifDb) : Nat :=
  db.notifications.count sid

theorem markNotified_preserves_id (now : Int) (tid : Nat) (s : SavedSearch) :
    ((if s.id = tid then { s with lastNotifiedAt := some now } else s) :
      SavedSearch).id = s.id := by
  split <;> rfl

theorem markNotified_filter_ne (now : Int) (tid sid : Nat) (h : tid ≠ sid)
    (l : List SavedSearch) :
    (markNotified now tid l).filter (fun x => x.id == sid) =
      l.filter (fun x => x.id == sid) := by
  induction l with
  | nil => rfl
  | cons a l ih =>
    unfold markNotified at ih ⊢
    simp only [List.map_cons, List.filter_cons, markNotified_preserves_id]
    by_cases ha : a.id = sid
    · have hat : ¬a.id = tid := fun hc => h (hc ▸ ha)
      rw [if_neg hat]
      simp [ha, ih]
    · simp [ha, ih]

theorem sendMarketUpdate_preserve (ok : Bool) (now : Int) (tid sid : Nat)
    (db : NotifDb) (h : tid ≠ sid) :
    searchesWithId sid (dbAfter (sendMarketUpdate ok now tid db)) =
      searchesWithId sid db ∧
    notifCount sid (dbAfter (sendMarketUpdate ok now tid db)) =
      notifCount sid db := by
  unfold sendMarketUpdate
  cases hfind : db.searches.find? (fun x => x.id == tid) with
  | none => exact ⟨rfl, rfl⟩
  | some x =>
    cases ok with
    | false =>
      refine ⟨rfl, ?_⟩
      simp [notifCount, dbAfter, List.count_append, List.count_cons, h]
    | true =>
      constructor
      · simp only [searchesWithId, dbAfter]
        exact markNotified_filter_ne now tid sid h db.searches
      · simp [notifCount, dbAfter, List.count_append, List.count_cons, h]

theorem processLoop_preserve (fails : Nat → Bool) (now : Int) (sid : Nat) :
    ∀ (todo : List SavedSearch) (db : NotifDb), (∀ x ∈ todo, x.id ≠ sid) →
    searchesWithId sid (dbAfter (processLoop fails now db todo)) =
      searchesWithId sid db ∧
    notifCount sid (dbAfter (processLoop fails now db todo)) =
      notifCount sid db := by
  intro todo
  induction todo with
  | nil => intro db _; exact ⟨rfl, rfl⟩
  | cons s rest ih =>
    intro db hids
    have hs : s.id ≠ sid := hids s (List.mem_cons_self s rest)
    have hsm := sendMarketUpdate_preserve (!fails s.id) now s.id sid db hs
    unfold processLoop
    cases hr : sendMarketUpdate (!fails s.id) now s.id db with
    | error d1 =>
      rw [hr] at hsm
      exact hsm
    | ok d1 =>
      rw [hr] at hsm
      simp only [dbAfter] at hsm
      have hrest := ih d1 (fun x hx => hids x (List.mem_cons_of_mem s hx))
      exact ⟨hrest.1.trans hsm.1, hrest.2.trans hsm.2⟩

theorem processFreq_preserve (fails : Nat → Bool) (now : Int)
    (g : NotificationFrequency) (sid : Nat) (db : NotifDb)
    (h : ∀ x ∈ db.searches, dueForFrequency now g x = true → x.id ≠ sid) :
    searchesWithId sid (dbAfter (processNotificationsByFrequency fails now g db)) =
      searchesWithId sid db ∧
    notifCount sid (dbAfter (processNotificationsByFrequency fails now g db)) =
      notifCount sid db :=
  processLoop_preserve fails now sid _ db
    (fun x hx => h x (List.mem_of_mem_filter hx) (List.of_mem_filter hx))

theorem schedule_preserve (fails : Nat → Bool) (now : Int) (dow dom : Nat)
    (s : SavedSearch) (db : NotifDb)
    (huniq : ∀ x ∈ db.searches, x.id = s.id → x = s)
    (hcase : (s.notificationFrequency = .WEEKLY ∧ dow ≠ 1) ∨
      (s.notificationFrequency = .MONTHLY ∧ dom ≠ 1)) :
    searchesWithId s.id
        (dbAfter (processScheduledNotifications fails dow dom now db)) =
      searchesWithId s.id db ∧
    notifCount s.id
        (dbAfter (processScheduledNotifications fails dow dom now db)) =
      notifCount s.id db := by
  have hcond : ∀ g : NotificationFrequency, s.notificationFrequency ≠ g →
      ∀ db' : NotifDb, searchesWithId s.id db' = searchesWithId s.id db →
      ∀ x ∈ db'.searches, dueForFrequency now g x = true → x.id ≠ s.id := by
    intro g hg db' hf x hx hdue hxid
    have hxf : x ∈ searchesWithId s.id db' := by
      unfold searchesWithId
      exact List.mem_filter.mpr ⟨hx, by simp [hxid]⟩
    rw [hf] at hxf
    have hxdb : x ∈ db.searches := List.mem_of_mem_filter hxf
    have hxs : x = s := huniq x hxdb hxid
    subst hxs
    exact hg ((dueForFrequency_eq now g x).mp hdue).2.1
  unfold processScheduledNotifications
  rcases hcase with ⟨hfr, hday⟩ | ⟨hfr, hday⟩
  · -- weekly search, dow ≠ 1
    have hnd : s.notificationFrequency ≠ .DAILY := by rw [hfr]; decide
    have hnm : s.notificationFrequency ≠ .MONTHLY := by rw [hfr]; decide
    have hd := processFreq_preserve fails now .DAILY s.id db
      (hcond .DAILY hnd db rfl)
    cases hr1 : processNotificationsByFrequency fails now .DAILY db with
    | error d => rw [hr1] at hd; exact hd
    | ok d1 =>
      rw [hr1] at hd
      simp only [dbAfter] at hd
      dsimp only
      rw [if_neg hday]
      dsimp only
      by_cases hdm : dom = 1
      · rw [if_pos hdm]
        have hm := processFreq_preserve fails now .MONTHLY s.id d1
          (hcond .MONTHLY hnm d1 hd.1)
        cases hr3 : processNotificationsByFrequency fails now .MONTHLY d1 with
        | error d => rw [hr3] at hm; exact ⟨hm.1.trans hd.1, hm.2.trans hd.2⟩
        | ok d3 =>
          rw [hr3] at hm
          simp only [dbAfter] at hm ⊢
          exact ⟨hm.1.trans hd.1, hm.2.trans hd.2⟩
      · rw [if_neg hdm]
        exact hd
  · -- monthly search, dom ≠ 1
    have hnd : s.notificationFrequency ≠ .DAILY := by rw [hfr]; decide
    have hnw : s.notificationFrequency ≠ .WEEKLY := by rw [hfr]; decide
    have hd := processFreq_preserve fails now .DAILY s.id db
      (hcond .DAILY hnd db rfl)
    cases hr1 : processNotificationsByFrequency fails now .DAILY db with
    | error d => rw [hr1] at hd; exact hd
    | ok d1 =>
      rw [hr1] at hd
      simp only [dbAfter] at hd
      dsimp only
      by_cases hdw : dow = 1
      · rw [if_pos hdw]
        have hw := processFreq_preserve fails now .WEEKLY s.id d1
          (hcond .WEEKLY hnw d1 hd.1)
        cases hr2 : processNotificationsByFrequency fails now .WEEKLY d1 with
        | error d => rw [hr2] at hw; exact ⟨hw.1.trans hd.1, hw.2.trans hd.2⟩
        | ok d2 =>
          rw [hr2] at hw
          simp only [dbAfter] at hw
          dsimp only
          rw [if_neg hday]
          exact ⟨hw.1.trans hd.1, hw.2.trans hd.2⟩
      · rw [if_neg hdw]
        dsimp only
        rw [if_neg hday]
        exact hd

/-- Some search in `db` carries the id `i`. -/
def idExists (i : Nat) (db : NotifDb) : Prop :=
  ∃ x ∈ db.searches, x.id = i

theorem sendMarketUpdate_ok (now : Int) (tid : Nat) (db : NotifDb) :
    ∃ db1, sendMarketUpdate true now tid db = .ok db1 ∧
      db.notifications ⊆ db1.notifications ∧
      (∀ i, idExists i db → idExists i db1) ∧
      (idExists tid db → tid ∈ db1.notifications) := by
  unfold sendMarketUpdate
  cases hfind : db.searches.find? (fun x => x.id == tid) with
  | none =>
    refine ⟨db, rfl, fun a ha => ha, fun i h => h, fun hid => ?_⟩
    exfalso
    rw [List.find?_eq_none] at hfind
    obtain ⟨x, hx, hxid⟩ := hid
    exact hfind x hx (by simp [hxid])
  | some x =>
    refine ⟨_, rfl, ?_, ?_, ?_⟩
    · intro a ha
      exact List.mem_append_left _ ha
    · rintro i ⟨y, hy, hyid⟩
      refine ⟨if y.id = tid then { y with lastNotifiedAt := some now } else y, ?_, ?_⟩
      · exact List.mem_map_of_mem _ hy
      · rw [markNotified_preserves_id]
        exact hyid
    · intro _
      exact List.mem_append_right _ (List.mem_singleton.mpr rfl)

theorem processLoop_ok (fails : Nat → Bool) (hfl : ∀ i, fails i = false)
    (now : Int) :
    ∀ (todo : List SavedSearch) (db : NotifDb), (∀ x ∈ todo, idExists x.id db) →
    ∃ db1, processLoop fails now db todo = .ok db1 ∧
      db.notifications ⊆ db1.notifications ∧
      (∀ i, idExists i db → idExists i db1) ∧
      (∀ x ∈ todo, x.id ∈ db1.notifications) := by
  intro todo
  induction todo with
  | nil =>
    intro db _
    exact ⟨db, rfl, fun a ha => ha, fun i h => h, by simp⟩
  | cons s rest ih =>
    intro db hex
    obtain ⟨d1, hd1, hsub1, hpres1, hnotif1⟩ := sendMarketUpdate_ok now s.id db
    have hstep : sendMarketUpdate (!fails s.id) now s.id db = .ok d1 := by
      rw [hfl s.id]
      exact hd1
    obtain ⟨d2, hd2, hsub2, hpres2, hnotif2⟩ :=
      ih d1 (fun x hx => hpres1 x.id (hex x (List.mem_cons_of_mem s hx)))
    refine ⟨d2, ?_, fun a ha => hsub2 (hsub1 ha), fun i h => hpres2 i (hpres1 i h), ?_⟩
    · unfold processLoop
      rw [hstep]
      exact hd2
    · intro x hx
      rcases List.mem_cons.mp hx with hx | hx
      · subst hx
        exact hsub2 (hnotif1 (hex x (List.mem_cons_self x rest)))
      · exact hnotif2 x hx

theorem processFreq_ok (fails : Nat → Bool) (hfl : ∀ i, fails i = false)
    (now : Int) (f : NotificationFrequency) (db : NotifDb) :
    ∃ db1, processNotificationsByFrequency fails now f db = .ok db1 ∧
      db.notifications ⊆ db1.notifications ∧
      (∀ x ∈ db.searches, dueForFrequency now f x = true →
        x.id ∈ db1.notifications) := by
  obtain ⟨db1, h1, h2, _, h4⟩ := processLoop_ok fails hfl now
    (db.searches.filter (dueForFrequency now f)) db
    (fun x hx => ⟨x, List.mem_of_mem_filter hx, rfl⟩)
  exact ⟨db1, h1, h2,
    fun x hx hdue => h4 x (List.mem_filter.mpr ⟨hx, hdue⟩)⟩

/-- C10: calendar gating.  On any invocation of the scheduler: (a) a weekly
SavedSearch is untouched unless the day of week is 1 (Monday), and a monthly
one is untouched unless the day of month is 1 — the search record (with its
`lastFiredAt`) survives unchanged and no notification record is created for
it, however overdue it is and whatever else happens in the tick; (b) daily
SavedSearches are evaluated on every invocation: on a failure-free tick a due
daily search gets a notification record regardless of the day of week or the
day of month. -/
theorem calendar_gating (db : NotifDb) (now : Int) (dow dom : Nat)
    (s : SavedSearch) (hmem : s ∈ db.searches)
    (huniq : ∀ x ∈ db.searches, x.id = s.id → x = s) :
    (∀ fails : Nat → Bool,
      (s.notificationFrequency = .WEEKLY ∧ dow ≠ 1) ∨
        (s.notificationFrequency = .MONTHLY ∧ dom ≠ 1) →
      s ∈ (dbAfter (processScheduledNotifications fails dow dom now db)).searches ∧
      (dbAfter (processScheduledNotifications fails dow dom now db)).notifications.count
          s.id = db.notifications.count s.id) ∧
    (s.notificationFrequency = .DAILY → dueForFrequency now .DAILY s = true →
      s.id ∈ (dbAfter (processScheduledNotifications (fun _ => false) dow dom now
        db)).notifications) := by
  constructor
  · intro fails hcase
    have h := schedule_preserve fails now dow dom s db huniq hcase
    constructor
    · have hs : s ∈ searchesWithId s.id db := by
        unfold searchesWithId
        exact List.mem_filter.mpr ⟨hmem, by simp⟩
      rw [← h.1] at hs
      exact List.mem_of_mem_filter hs
    · exact h.2
  · intro _ hdue
    have hfl : ∀ i, (fun _ : Nat => false) i = false := fun _ => rfl
    obtain ⟨d1, hr1, _, hnote⟩ := processFreq_ok (fun _ => false) hfl now .DAILY db
    have hin1 : s.id ∈ d1.notifications := hnote s hmem hdue
    unfold processScheduledNotifications
    rw [hr1]
    dsimp only
    by_cases hdw : dow = 1
    · rw [if_pos hdw]
      obtain ⟨d2, hr2, hsub2, _⟩ := processFreq_ok (fun _ => false) hfl now .WEEKLY d1
      rw [hr2]
      dsimp only
      have hin2 : s.id ∈ d2.notifications := hsub2 hin1
      by_cases hdm : dom = 1
      · rw [if_pos hdm]
        obtain ⟨d3, hr3, hsub3, _⟩ :=
          processFreq_ok (fun _ => false) hfl now .MONTHLY d2
        rw [hr3]
        exact hsub3 hin2
      · rw [if_neg hdm]
        exact hin2
    · rw [if_neg hdw]
      dsimp only
      by_cases hdm : dom = 1
      · rw [if_pos hdm]
        obtain ⟨d3, hr3, hsub3, _⟩ :=
          processFreq_ok (fun _ => false) hfl now .MONTHLY d1
        rw [hr3]
        exact hsub3 hin1
      · rw [if_neg hdm]
        exact hin1

/-- Witness for C10: a store holding one overdue weekly search (id 4, never
fired) and one due daily search (id 6), evaluated on a Wednesday (day of week
3) that is the 15th of the month. -/
theorem calendar_gating_witness :
    ((⟨4, 2, true, .WEEKLY, none⟩ : SavedSearch) ∈
        (dbAfter (processScheduledNotifications (fun _ => false) 3 15 0
          ⟨[⟨4, 2, true, .WEEKLY, none⟩, ⟨6, 2, true, .DAILY, none⟩], [], []⟩)).searches ∧
      (dbAfter (processScheduledNotifications (fun _ => false) 3 15 0
          ⟨[⟨4, 2, true, .WEEKLY, none⟩, ⟨6, 2, true, .DAILY, none⟩], [], []⟩)).notifications.count
        4 = ([] : List Nat).count 4) ∧
    6 ∈ (dbAfter (processScheduledNotifications (fun _ => false) 3 15 0
      ⟨[⟨4, 2, true, .WEEKLY, none⟩, ⟨6, 2, true, .DAILY, none⟩], [], []⟩)).notifications := by
  have h := calendar_gating
    ⟨[⟨4, 2, true, .WEEKLY, none⟩, ⟨6, 2, true, .DAILY, none⟩], [], []⟩ 0 3 15
    ⟨4, 2, true, .WEEKLY, none⟩ (by simp) (by decide)
  have h2 := calendar_gating
    ⟨[⟨4, 2, true, .WEEKLY, none⟩, ⟨6, 2, true, .DAILY, none⟩], [], []⟩ 0 3 15
    ⟨6, 2, true, .DAILY, none⟩ (by simp) (by decide)
  exact ⟨h.1 (fun _ => false) (Or.inl ⟨rfl, by decide⟩), h2.2 rfl (by decide)⟩

/-! ## Filter engine (HousingService.getHousingData and GetHousingDataDto)

`GetHousingDataDto` is validated by the global `ValidationPipe` from its
class-validator decorators: every field optional except `page`/`limit`
(defaults 1 and 20), `minPrice >= 0`, `maxPrice <= 10000000`,
`year` in [2000, 2030], `month` in [1, 12], `page >= 1`, `limit` in [1, 100].
`getHousingData` assembles a Prisma `where` clause; the price bounds are
gated by the JavaScript truthiness test `if (query.minPrice || query.maxPrice)`
(a numeric field is truthy exactly when present and nonzero), and likewise
for `countyId` (a string is truthy when nonempty), `year` and `month`.  The
query sorts by `[{year: desc}, {month: desc}]`, then applies
`skip = (page-1)*limit` and `take = limit`; `count` runs on the same `where`
clause; the response carries the page of records plus
`{total, page, limit, totalPages}` . -/

structure GetHousingDataDto where
  countyId : Option String
  state : Option String
  minPrice : Option Int
  maxPrice : Option Int
  year : Option Int
  month : Option Int
  page : Int
  limit : Int
deriving DecidableEq, Repr

/-- The class-validator decorators of `GetHousingDataDto`. -/
def validDto (q : GetHousingDataDto) : Bool :=
  (match q.minPrice with | none => true | some v => decide (0 ≤ v)) &&
  (match q.maxPrice with | none => true | some v => decide (v ≤ 10000000)) &&
  (match q.year with | none => true | some v => decide (2000 ≤ v) && decide (v ≤ 2030)) &&
  (match q.month with | none => true | some v => decide (1 ≤ v) && decide (v ≤ 12)) &&
  decide (1 ≤ q.page) && decide (1 ≤ q.limit) && decide (q.limit ≤ 100)

structure HousingRecord where
  id : Nat
  countyId : String
  medianHomePrice : Int
  year : Int
  month : Int
deriving DecidableEq, Repr

/-- JavaScript truthiness of an optional numeric field: present and nonzero. -/
def jsTruthyNum (v : Option Int) : Bool :=
  match v with
  | none => false
  | some x => decide (x ≠ 0)

structure PriceFilter where
  gte : Option Int
  lte : Option Int
deriving DecidableEq, Repr

/-- The `where.medianHomePrice` clause:
`if (query.minPrice || query.maxPrice) where.medianHomePrice = {gte, lte}`. -/
def buildPriceFilter (minP maxP : Option Int) : Option PriceFilter :=
  if jsTruthyNum minP || jsTruthyNum maxP then some ⟨minP, maxP⟩ else none

/-- Prisma semantics of the price clause: an absent clause or absent bound
restricts nothing. -/
def matchesPrice (pf : Option PriceFilter) (p : Int) : Bool :=
  match pf with
  | none => true
  | some f =>
    (match f.gte with | none => true | some v => decide (v ≤ p)) &&
    (match f.lte with | none => true | some v => decide (p ≤ v))

/-- The full `where` clause of `getHousingData` applied to a record. -/
def matchesWhere (q : GetHousingDataDto) (r : HousingRecord) : Bool :=
  (match q.countyId with
   | none => true
   | some c => if c.isEmpty then true else r.countyId == c) &&
  matchesPrice (buildPriceFilter q.minPrice q.maxPrice) r.medianHomePrice &&
  (match q.year with
   | none => true
   | some y => if y = 0 then true else r.year == y) &&
  (match q.month with
   | none => true
   | some m => if m = 0 then true else r.month == m)

/-- The `orderBy: [{year: 'desc'}, {month: 'desc'}]` order. -/
def housingLeProp (a b : HousingRecord) : Prop :=
  b.year < a.year ∨ (b.year = a.year ∧ b.month ≤ a.month)

instance : DecidableRel housingLeProp := fun a b => by
  unfold housingLeProp
  exact inferInstance

instance : IsTotal HousingRecord housingLeProp :=
  ⟨by intro a b; unfold housingLeProp; omega⟩

instance : IsTrans HousingRecord housingLeProp :=
  ⟨by intro a b c; unfold housingLeProp; omega⟩

structure PaginationInfo where
  total : Nat
  page : Int
  limit : Int
  totalPages : Nat
deriving DecidableEq, Repr

structure HousingResult where
  data : List HousingRecord
  pagination : PaginationInfo
deriving DecidableEq, Repr

/-- `getHousingData`: filter, sort (`findMany` with `orderBy` modelled as a
stable sort of the store), `skip`/`take`, and `count` on the same `where`. -/
def getHousingData (q : GetHousingDataDto) (store : List HousingRecord) :
    HousingResult :=
  let matching := store.filter (matchesWhere q)
  let sorted := List.insertionSort housingLeProp matching
  { data := (sorted.drop ((q.page - 1) * q.limit).toNat).take q.limit.toNat,
    pagination :=
      { total := matching.length,
        page := q.page,
        limit := q.limit,
        totalPages := (matching.length + q.limit.toNat - 1) / q.limit.toNat } }

/-- C4 counterexample: the FilterDocument `{minPrice: 500000, maxPrice:
100000}` (min > max) passes validation — the decorators check each bound in
isolation, there is no `min <= max` cross-check — and the query then runs
against the record store, returning an empty page with zero total instead of
a ValidationError; the store even holds a record with price 300000 that lies
between the two bounds. -/
theorem rangeValidation_cex :
    validDto ⟨none, none, some 500000, some 100000, none, none, 1, 20⟩ = true ∧
    getHousingData ⟨none, none, some 500000, some 100000, none, none, 1, 20⟩
      [⟨1, "a", 300000, 2022, 1⟩] = ⟨[], ⟨0, 1, 20, 0⟩⟩ := by
  constructor
  · decide
  · rfl

/-- C4 (amended): validation accepts a range with min > max (it checks only
`minPrice >= 0` and `maxPrice <= 10000000` per field); the query executes with
the inverted bounds passed through unchanged — neither swapped nor clamped —
and, the conjunction `price >= min AND price <= max` being unsatisfiable,
returns an empty record list with total 0 rather than an error. -/
theorem invertedRange_accepted_empty (q : GetHousingDataDto)
    (store : List HousingRecord) (a b : Int)
    (hmin : q.minPrice = some a) (hmax : q.maxPrice = some b) (hba : b < a) :
    buildPriceFilter q.minPrice q.maxPrice = some ⟨some a, some b⟩ ∧
    (getHousingData q store).data = [] ∧
    (getHousingData q store).pagination.total = 0 := by
  have hbf : buildPriceFilter q.minPrice q.maxPrice = some ⟨some a, some b⟩ := by
    unfold buildPriceFilter
    rw [hmin, hmax]
    have hor : (jsTruthyNum (some a) || jsTruthyNum (some b)) = true := by
      unfold jsTruthyNum
      rcases eq_or_ne a 0 with ha | ha
      · have hb : b ≠ 0 := by omega
        simp [ha, hb]
      · simp [ha]
    rw [hor]
    simp
  have hprice : ∀ p : Int,
      matchesPrice (buildPriceFilter q.minPrice q.maxPrice) p = false := by
    intro p
    rw [hbf]
    unfold matchesPrice
    simp only [Bool.and_eq_false_iff, decide_eq_false_iff_not, not_le]
    omega
  have hfalse : ∀ r, matchesWhere q r = false := by
    intro r
    unfold matchesWhere
    rw [hprice r.medianHomePrice]
    simp
  have hfil : store.filter (matchesWhere q) = [] := by
    rw [List.filter_eq_nil_iff]
    intro r _
    simp [hfalse r]
  refine ⟨hbf, ?_, ?_⟩
  · simp [getHousingData, hfil]
  · simp [getHousingData, hfil]

/-- Witness for the amended C4 at `{minPrice: 500000, maxPrice: 100000}`. -/
theorem invertedRange_accepted_empty_witness :
    buildPriceFilter (some 500000) (some 100000) =
      some ⟨some 500000, some 100000⟩ ∧
    (getHousingData ⟨none, none, some 500000, some 100000, none, none, 1, 20⟩
      [⟨2, "b", 250000, 2021, 3⟩]).data = [] ∧
    (getHousingData ⟨none, none, some 500000, some 100000, none, none, 1, 20⟩
      [⟨2, "b", 250000, 2021, 3⟩]).pagination.total = 0 :=
  invertedRange_accepted_empty
    ⟨none, none, some 500000, some 100000, none, none, 1, 20⟩
    [⟨2, "b", 250000, 2021, 3⟩] 500000 100000 rfl rfl (by decide)

/-- C5 counterexample: a valid filter whose only bound is `minPrice = 0` is
treated as if no price bound were given at all — the truthiness test
`if (query.minPrice || query.maxPrice)` is false for `0` — so a record with
a negative price, which the claimed lower bound 0 would exclude, is
returned. -/
theorem zeroMinBound_cex :
    validDto ⟨none, none, some 0, none, none, none, 1, 20⟩ = true ∧
    buildPriceFilter (some 0) none = none ∧
    (getHousingData ⟨none, none, some 0, none, none, none, 1, 20⟩
      [⟨1, "x", -5, 2020, 1⟩]).data = [⟨1, "x", -5, 2020, 1⟩] ∧
    (getHousingData ⟨none, none, some 0, none, none, none, 1, 20⟩
      [⟨1, "x", -5, 2020, 1⟩]).pagination.total = 1 := by
  refine ⟨by decide, by decide, by rfl, by rfl⟩

/-- C5 (amended): an absent price clause or absent bound restricts nothing,
and an absent min with a nonzero max yields only the upper bound; but a
present bound of zero survives only when the other bound makes the clause
truthy: `minPrice = 0` together with a nonzero `maxPrice` is passed through as
`gte: 0`, while `minPrice = 0` with `maxPrice` absent (or zero) drops the
price clause entirely, behaving as if the bound were missing. -/
theorem bound_normalization_amended :
    (∀ p : Int, matchesPrice none p = true) ∧
    buildPriceFilter none none = none ∧
    (∀ b : Int, b ≠ 0 → buildPriceFilter none (some b) = some ⟨none, some b⟩) ∧
    (∀ b p : Int, matchesPrice (some ⟨none, some b⟩) p = decide (p ≤ b)) ∧
    (∀ b : Int, b ≠ 0 → buildPriceFilter (some 0) (some b) = some ⟨some 0, some b⟩) ∧
    buildPriceFilter (some 0) none = none := by
  refine ⟨fun p => rfl, rfl, ?_, ?_, ?_, rfl⟩
  · intro b hb
    simp [buildPriceFilter, jsTruthyNum, hb]
  · intro b p
    simp [matchesPrice]
  · intro b hb
    simp [buildPriceFilter, jsTruthyNum, hb]

/-- Witness for the amended C5 with max 3000 and price 5. -/
theorem bound_normalization_amended_witness :
    matchesPrice none 5 = true ∧
    buildPriceFilter none (some 3000) = some ⟨none, some 3000⟩ ∧
    matchesPrice (some ⟨none, some 3000⟩) 5 = decide ((5 : Int) ≤ 3000) ∧
    buildPriceFilter (some 0) (some 3000) = some ⟨some 0, some 3000⟩ := by
  have h := bound_normalization_amended
  exact ⟨h.1 5, h.2.2.1 3000 (by decide), h.2.2.2.1 3000 5,
    h.2.2.2.2.1 3000 (by decide)⟩

/-- Following the specification's words: the maximum of the relevant price
field across a full matching set ("min/max/avg of the relevant price or rent
field across the full matching set, not just the returned page"). -/
def specMaxPrice (l : List HousingRecord) : Option Int :=
  (l.map (fun r => r.medianHomePrice)).max?

/-- C6 counterexample: two stores that agree on the returned page (limit 1)
and on the count, but whose full matching sets have different maximum (and
average) prices, produce literally identical `getHousingData` responses — so
the response determines no min/max/avg aggregate of the full matching set;
it carries only the records of the page and `{total, page, limit,
totalPages}`. -/
theorem aggregate_summary_cex :
    getHousingData ⟨none, none, none, none, none, none, 1, 1⟩
        [⟨1, "a", 100, 2021, 5⟩, ⟨2, "a", 200, 2020, 1⟩] =
      getHousingData ⟨none, none, none, none, none, none, 1, 1⟩
        [⟨1, "a", 100, 2021, 5⟩, ⟨2, "a", 999, 2020, 1⟩] ∧
    specMaxPrice ([⟨1, "a", 100, 2021, 5⟩, ⟨2, "a", 200, 2020, 1⟩].filter
        (matchesWhere ⟨none, none, none, none, none, none, 1, 1⟩)) ≠
      specMaxPrice ([⟨1, "a", 100, 2021, 5⟩, ⟨2, "a", 999, 2020, 1⟩].filter
        (matchesWhere ⟨none, none, none, none, none, none, 1, 1⟩)) := by
  constructor
  · rfl
  · decide

/-- C6 (amended): the response carries no min/max/avg aggregates; the only
aggregate it computes is the count (`pagination.total`), and that count is
taken over the entire matching set before pagination; an empty matching set
yields an empty record list with total 0 — a normal response, not an
error. -/
theorem count_aggregate_amended (q : GetHousingDataDto)
    (store : List HousingRecord) :
    (getHousingData q store).pagination.total =
      (store.filter (matchesWhere q)).length ∧
    (store.filter (matchesWhere q) = [] →
      (getHousingData q store).data = [] ∧
      (getHousingData q store).pagination.total = 0) := by
  refine ⟨rfl, fun h => ⟨?_, ?_⟩⟩
  · simp [getHousingData, h]
  · simp [getHousingData, h]

/-- Witness for the amended C6: a region filter matching no record. -/
theorem count_aggregate_amended_witness :
    (getHousingData ⟨some "ZZ", none, none, none, none, none, 1, 20⟩
      [⟨1, "a", 100, 2020, 1⟩]).data = [] ∧
    (getHousingData ⟨some "ZZ", none, none, none, none, none, 1, 20⟩
      [⟨1, "a", 100, 2020, 1⟩]).pagination.total = 0 :=
  (count_aggregate_amended ⟨some "ZZ", none, none, none, none, none, 1, 20⟩
    [⟨1, "a", 100, 2020, 1⟩]).2 (by decide)

/-- C7 counterexample: two records tying on the only sort keys the code uses
(year and month) come back in store order, not in ascending-id order: the
record with id 2 precedes the one with id 1.  There is no requested sort key
to honor — the DTO carries none — and no secondary tie-break on the record
identifier. -/
theorem ordering_cex :
    (⟨2, "a", 50, 2020, 6⟩ : HousingRecord).year =
      (⟨1, "a", 100, 2020, 6⟩ : HousingRecord).year ∧
    (⟨2, "a", 50, 2020, 6⟩ : HousingRecord).month =
      (⟨1, "a", 100, 2020, 6⟩ : HousingRecord).month ∧
    (getHousingData ⟨none, none, none, none, none, none, 1, 20⟩
      [⟨2, "a", 50, 2020, 6⟩, ⟨1, "a", 100, 2020, 6⟩]).data.map
        (fun r => r.id) = [2, 1] := by
  refine ⟨rfl, rfl, by rfl⟩

/-- C7 (amended): `getHousingData` always orders its page by the fixed key
year descending then month descending — the request carries no sort key or
direction, and ties on (year, month) are not broken by the record identifier
(they stay in record-store order, as the counterexample shows); being a pure
function of the query and the store, repeated calls against unchanged data
return identical output. -/
theorem ordering_fixed_key (q : GetHousingDataDto) (store : List HousingRecord) :
    List.Sorted housingLeProp ((getHousingData q store).data) := by
  have hs : List.Sorted housingLeProp
      (List.insertionSort housingLeProp (store.filter (matchesWhere q))) :=
    List.sorted_insertionSort housingLeProp _
  exact List.Pairwise.sublist
    ((List.take_sublist _ _).trans (List.drop_sublist _ _)) hs

/-! ## Trend summary (HousingService.calculateTrendSummary)

`calculateTrendSummary` computes
`((last - first) / first) * 100` with JavaScript numbers.  A JavaScript
number is modelled as `JsNum`: an exact rational, or one of the IEEE-754
non-finite values `Infinity`, `-Infinity`, `NaN`.  Only the division can make
a non-finite value here; when the divisor is zero, IEEE-754 (and hence
JavaScript) yields `Infinity`, `-Infinity` or `NaN` according to the sign of
the dividend — this classification is exact, no rounding is involved. -/

structure RentRecord where
  id : Nat
  countyId : String
  medianRent : Int
  year : Int
  month : Int
deriving DecidableEq, Repr

inductive JsNum where
  | num (val : ℚ)
  | posInf
  | negInf
  | nan
deriving DecidableEq, Repr

/-- JavaScript division of two (finite, integral) numbers. -/
def jsDivInt (a b : Int) : JsNum :=
  if b ≠ 0 then .num ((a : ℚ) / (b : ℚ))
  else if 0 < a then .posInf
  else if a < 0 then .negInf
  else .nan

/-- JavaScript multiplication by the positive literal `100`. -/
def jsMul100 : JsNum → JsNum
  | .num v => .num (v * 100)
  | .posInf => .posInf
  | .negInf => .negInf
  | .nan => .nan

def JsNum.isFinite : JsNum → Bool
  | .num _ => true
  | _ => false

structure TrendChange where
  absolute : Int
  percentage : JsNum
deriving DecidableEq, Repr

structure TrendSummary where
  homePriceChange : TrendChange
  rentChange : TrendChange
deriving DecidableEq, Repr

/-- `calculateTrendSummary(housingData, rentData)`: returns `null` when either
series has fewer than two points, otherwise compares the first and the last
record of each series. -/
def calculateTrendSummary (housingData : List HousingRecord)
    (rentData : List RentRecord) : Option TrendSummary :=
  if housingData.length < 2 || rentData.length < 2 then none
  else
    match housingData.head?, housingData.getLast?,
        rentData.head?, rentData.getLast? with
    | some fh, some lh, some fr, some lr =>
      some
        { homePriceChange :=
            { absolute := lh.medianHomePrice - fh.medianHomePrice,
              percentage := jsMul100 (jsDivInt
                (lh.medianHomePrice - fh.medianHomePrice) fh.medianHomePrice) },
          rentChange :=
            { absolute := lr.medianRent - fr.medianRent,
              percentage := jsMul100 (jsDivInt
                (lr.medianRent - fr.medianRent) fr.medianRent) } }
    | _, _, _, _ => none

theorem jsMul100_div_zero_not_finite (a : Int) :
    (jsMul100 (jsDivInt a 0)).isFinite = false := by
  unfold jsDivInt
  rcases lt_trichotomy a 0 with h | h | h
  · rw [if_neg (by omega), if_neg (by omega), if_pos h]
    rfl
  · rw [if_neg (by omega), if_neg (by omega), if_neg (by omega)]
    rfl
  · rw [if_neg (by omega), if_pos h]
    rfl

theorem not_finite_ne_num {x : JsNum} (h : x.isFinite = false) (v : ℚ) :
    x ≠ .num v := by
  intro hx
  rw [hx] at h
  exact absurd h (by simp [JsNum.isFinite])

/-- C9: zero baseline.  Whenever a series has at least two points and its
first (prior) value is zero, `calculateTrendSummary` still returns a summary
— no division-by-zero error is raised — and the `percentage` of the
corresponding change field is a non-finite IEEE sentinel (`Infinity`,
`-Infinity` or `NaN`): in particular it is never the finite number 0. -/
theorem zero_baseline_sentinel (hd : List HousingRecord) (rd : List RentRecord)
    (fh : HousingRecord) (fr : RentRecord)
    (hlen : 2 ≤ hd.length) (hrlen : 2 ≤ rd.length)
    (hhead : hd.head? = some fh) (hrhead : rd.head? = some fr) :
    ∃ s, calculateTrendSummary hd rd = some s ∧
      (fh.medianHomePrice = 0 →
        s.homePriceChange.percentage.isFinite = false ∧
        ∀ v : ℚ, s.homePriceChange.percentage ≠ .num v) ∧
      (fr.medianRent = 0 →
        s.rentChange.percentage.isFinite = false ∧
        ∀ v : ℚ, s.rentChange.percentage ≠ .num v) := by
  have hne : hd ≠ [] := by
    intro h
    rw [h] at hlen
    simp at hlen
  have hrne : rd ≠ [] := by
    intro h
    rw [h] at hrlen
    simp at hrlen
  obtain ⟨lh, hlast⟩ := Option.isSome_iff_exists.mp
    (List.getLast?_isSome.mpr hne)
  obtain ⟨lr, hrlast⟩ := Option.isSome_iff_exists.mp
    (List.getLast?_isSome.mpr hrne)
  have hguard : (hd.length < 2 || rd.length < 2) = false := by
    simp
    omega
  refine ⟨⟨⟨lh.medianHomePrice - fh.medianHomePrice,
      jsMul100 (jsDivInt (lh.medianHomePrice - fh.medianHomePrice)
        fh.medianHomePrice)⟩,
    ⟨lr.medianRent - fr.medianRent,
      jsMul100 (jsDivInt (lr.medianRent - fr.medianRent) fr.medianRent)⟩⟩,
    ?_, ?_, ?_⟩
  · unfold calculateTrendSummary
    rw [hguard, hhead, hlast, hrhead, hrlast]
    simp
  · intro hz
    rw [hz]
    exact ⟨jsMul100_div_zero_not_finite _,
      fun v => not_finite_ne_num (jsMul100_div_zero_not_finite _) v⟩
  · intro hz
    rw [hz]
    exact ⟨jsMul100_div_zero_not_finite _,
      fun v => not_finite_ne_num (jsMul100_div_zero_not_finite _) v⟩

/-- Witness for C9: a two-point housing series starting at price 0 (rent
series starting at 10). -/
theorem zero_baseline_sentinel_witness :
    ∃ s, calculateTrendSummary
        [⟨1, "a", 0, 2020, 1⟩, ⟨2, "a", 50, 2020, 2⟩]
        [⟨1, "a", 10, 2020, 1⟩, ⟨2, "a", 20, 2020, 2⟩] = some s ∧
      ((⟨1, "a", 0, 2020, 1⟩ : HousingRecord).medianHomePrice = 0 →
        s.homePriceChange.percentage.isFinite = false ∧
        ∀ v : ℚ, s.homePriceChange.percentage ≠ .num v) ∧
      ((⟨1, "a", 10, 2020, 1⟩ : RentRecord).medianRent = 0 →
        s.rentChange.percentage.isFinite = false ∧
        ∀ v : ℚ, s.rentChange.percentage ≠ .num v) :=
  zero_baseline_sentinel
    [⟨1, "a", 0, 2020, 1⟩, ⟨2, "a", 50, 2020, 2⟩]
    [⟨1, "a", 10, 2020, 1⟩, ⟨2, "a", 20, 2020, 2⟩]
    ⟨1, "a", 0, 2020, 1⟩ ⟨1, "a", 10, 2020, 1⟩
    (by decide) (by decide) rfl rfl

end HousingTrends
